import Mathlib

/-!
Verification of the pure scoring and rating functions of the minimax
repository (crates stylus/battle_scoring and stylus/leaderboard).

The Rust code computes on the 256-bit unsigned integer type U256.  We embed
U256 values as natural numbers below 2 ^ 256 and model the release-build
semantics of the arithmetic operators: multiplication and addition wrap
around modulo 2 ^ 256 (helpers umul and uadd below).  Every subtraction in
the source is performed under a guard that rules out underflow, so it is
translated as truncated natural subtraction, and every division in scope of
the claims has a divisor that the surrounding guard keeps positive.
-/

/-- Modulus of 256-bit unsigned arithmetic. -/
def U256MOD : ℕ := 2 ^ 256

/-- Wrapping multiplication of two 256-bit values. -/
def umul (a b : ℕ) : ℕ := a * b % U256MOD

/-- Wrapping addition of two 256-bit values. -/
def uadd (a b : ℕ) : ℕ := (a + b) % U256MOD

/-- battle_scoring: SCORE_DECIMALS = 1e18, fixed-point scale. -/
def SCORE_DECIMALS : ℕ := 10 ^ 18

/-- battle_scoring: MAX_BPS = 10000 basis points. -/
def MAX_BPS : ℕ := 10000

/-- battle_scoring: TIGHT_RANGE_THRESHOLD = 100 ticks. -/
def TIGHT_RANGE_THRESHOLD : ℕ := 100

/-- battle_scoring: TIGHT_RANGE_BONUS = 0.2e18. -/
def TIGHT_RANGE_BONUS : ℕ := 2 * 10 ^ 17

/-- battle_scoring: DEX_WEIGHT_BPS table, index 0 = UNISWAP_V4, 1 = CAMELOT_V3. -/
def DEX_WEIGHT_BPS : List ℕ := [10000, 10000]

/-- Base part of range_score: (in_range_time * 1e18) / total_time. -/
def rangeBase (in_range_time total_time : ℕ) : ℕ :=
  umul in_range_time SCORE_DECIMALS / total_time

/-- Tick-tightness bonus of range_score:
maxBonus * (threshold - tickDistance) / threshold below the threshold, else 0. -/
def tickBonus (tick_distance : ℕ) : ℕ :=
  if tick_distance < TIGHT_RANGE_THRESHOLD then
    umul TIGHT_RANGE_BONUS (TIGHT_RANGE_THRESHOLD - tick_distance) / TIGHT_RANGE_THRESHOLD
  else 0

/-- battle_scoring::range_score.  Zero when total_time = 0, otherwise
base + base * bonus / 1e18. -/
def range_score (in_range_time total_time tick_distance : ℕ) : ℕ :=
  if total_time = 0 then 0
  else
    uadd (rangeBase in_range_time total_time)
      (umul (rangeBase in_range_time total_time) (tickBonus tick_distance) / SCORE_DECIMALS)

/-- battle_scoring::fee_score: (fees_usd * 1e18) / (lp_value_usd * duration),
zero when lp_value_usd = 0 or duration = 0. -/
def fee_score (fees_usd lp_value_usd duration : ℕ) : ℕ :=
  if lp_value_usd = 0 ∨ duration = 0 then 0
  else umul fees_usd SCORE_DECIMALS / umul lp_value_usd duration

/-- battle_scoring::winner: 1 when score_a >= score_b, else 2. -/
def winner (score_a score_b : ℕ) : ℕ :=
  if score_b ≤ score_a then 1 else 2

/-- battle_scoring::rewards: saturates to (0, total) when resolver_bps >= MAX_BPS,
otherwise (total - resolver_amount, resolver_amount) with
resolver_amount = total * resolver_bps / MAX_BPS. -/
def rewards (total_fees resolver_bps : ℕ) : ℕ × ℕ :=
  if MAX_BPS ≤ resolver_bps then (0, total_fees)
  else
    (total_fees - umul total_fees resolver_bps / MAX_BPS,
      umul total_fees resolver_bps / MAX_BPS)

/-- battle_scoring::normalize_cross_dex: looks up the weight in DEX_WEIGHT_BPS,
defaulting to MAX_BPS out of range, then raw * weight / MAX_BPS. -/
def normalize_cross_dex (raw_score dex_type : ℕ) : ℕ :=
  umul raw_score (DEX_WEIGHT_BPS.getD dex_type MAX_BPS) / MAX_BPS

/-- leaderboard: K_FACTOR = 32. -/
def K_FACTOR : ℕ := 32

/-- leaderboard: ELO_SCALE = 1000. -/
def ELO_SCALE : ℕ := 1000

/-- leaderboard: ELO_SPREAD = 400 (the code uses spread4 = 4 * 400 = 1600). -/
def ELO_SPREAD : ℕ := 400

/-- Expected score of the winner in calculate_new_elo, clamped linear
approximation.  Matches the two branches of the source: when
winner_elo >= loser_elo the half scale plus diff * scale / spread4 clamped
above by the scale, otherwise the half scale minus the penalty, clamped
below by zero. -/
def expectedWinner (winner_elo loser_elo : ℕ) : ℕ :=
  if loser_elo ≤ winner_elo then
    if ELO_SCALE <
        uadd (ELO_SCALE / 2) (umul (winner_elo - loser_elo) ELO_SCALE / (ELO_SPREAD * 4)) then
      ELO_SCALE
    else
      uadd (ELO_SCALE / 2) (umul (winner_elo - loser_elo) ELO_SCALE / (ELO_SPREAD * 4))
  else
    if ELO_SCALE / 2 ≤ umul (loser_elo - winner_elo) ELO_SCALE / (ELO_SPREAD * 4) then 0
    else ELO_SCALE / 2 - umul (loser_elo - winner_elo) ELO_SCALE / (ELO_SPREAD * 4)

/-- The winner gain as computed in step 3 of calculate_new_elo, before the
forced-minimum rule: K * (SCALE - expected_winner) / SCALE. -/
def rawWinnerGain (winner_elo loser_elo : ℕ) : ℕ :=
  umul K_FACTOR (ELO_SCALE - expectedWinner winner_elo loser_elo) / ELO_SCALE

/-- The loser loss of calculate_new_elo:
K * expected_loser / SCALE with expected_loser = SCALE - expected_winner. -/
def loserLoss (winner_elo loser_elo : ℕ) : ℕ :=
  umul K_FACTOR (ELO_SCALE - expectedWinner winner_elo loser_elo) / ELO_SCALE

/-- The winner gain after the forced-minimum rule of calculate_new_elo:
a zero raw gain is replaced by 1. -/
def winnerGain (winner_elo loser_elo : ℕ) : ℕ :=
  if rawWinnerGain winner_elo loser_elo = 0 then 1 else rawWinnerGain winner_elo loser_elo

/-- leaderboard::calculate_new_elo.  New winner rating is winner_elo plus the
gain (wrapping 256-bit addition); new loser rating is loser_elo minus the
loss when loser_elo > loser_loss + 100, else the floor 100. -/
def calculate_new_elo (winner_elo loser_elo : ℕ) : ℕ × ℕ :=
  (uadd winner_elo (winnerGain winner_elo loser_elo),
    if loserLoss winner_elo loser_elo + 100 < loser_elo then
      loser_elo - loserLoss winner_elo loser_elo
    else 100)

/-! ## Basic facts about the wrapping arithmetic helpers -/

lemma U256MOD_pos : 0 < U256MOD := Nat.pos_pow_of_pos 256 (by norm_num)

lemma umul_lt (a b : ℕ) : umul a b < U256MOD := Nat.mod_lt _ U256MOD_pos

lemma umul_le (a b : ℕ) : umul a b ≤ a * b := Nat.mod_le _ _

lemma umul_eq_of_lt {a b : ℕ} (h : a * b < U256MOD) : umul a b = a * b :=
  Nat.mod_eq_of_lt h

lemma uadd_eq_of_lt {a b : ℕ} (h : a + b < U256MOD) : uadd a b = a + b :=
  Nat.mod_eq_of_lt h

/-! ## Bounds on the clamped expected score -/

/-- The clamped expected score never exceeds the scale. -/
lemma expectedWinner_le_scale (w l : ℕ) : expectedWinner w l ≤ 1000 := by
  unfold expectedWinner ELO_SCALE ELO_SPREAD
  split_ifs with h1 h2 h3 <;> omega

/-- When the winner is the (weak) favorite the clamped expected score is at
least half the scale. -/
lemma half_le_expectedWinner {w l : ℕ} (h : l ≤ w) : 500 ≤ expectedWinner w l := by
  unfold expectedWinner ELO_SCALE ELO_SPREAD
  rw [if_pos h]
  have hlt : umul (w - l) 1000 < U256MOD := umul_lt _ _
  have hdiv : umul (w - l) 1000 / (400 * 4) ≤ (U256MOD - 1) / (400 * 4) :=
    Nat.div_le_div_right (by omega)
  have hbig : (U256MOD - 1) / (400 * 4) + 500 < U256MOD := by decide
  rw [uadd_eq_of_lt (by omega)]
  split_ifs with h2 <;> omega

/-- When the winner is the strict underdog the clamped expected score is at
most half the scale. -/
lemma expectedWinner_le_half {w l : ℕ} (h : w < l) : expectedWinner w l ≤ 500 := by
  unfold expectedWinner ELO_SCALE ELO_SPREAD
  rw [if_neg (by omega)]
  split_ifs with h1 <;> omega

/-! ## The gain and loss are small -/

/-- The raw winner gain in plain integer arithmetic: the product
K * (SCALE - expected) is at most 32000, far below the 256-bit modulus. -/
lemma rawWinnerGain_eq (w l : ℕ) :
    rawWinnerGain w l = 32 * (1000 - expectedWinner w l) / 1000 := by
  unfold rawWinnerGain K_FACTOR ELO_SCALE
  rw [umul_eq_of_lt]
  calc 32 * (1000 - expectedWinner w l) ≤ 32 * 1000 :=
        Nat.mul_le_mul_left 32 (by omega)
    _ < U256MOD := by decide

/-- The loser loss coincides with the raw winner gain (identical source
expressions). -/
lemma loserLoss_eq (w l : ℕ) :
    loserLoss w l = 32 * (1000 - expectedWinner w l) / 1000 := by
  unfold loserLoss K_FACTOR ELO_SCALE
  rw [umul_eq_of_lt]
  calc 32 * (1000 - expectedWinner w l) ≤ 32 * 1000 :=
        Nat.mul_le_mul_left 32 (by omega)
    _ < U256MOD := by decide

lemma winnerGain_pos (w l : ℕ) : 1 ≤ winnerGain w l := by
  unfold winnerGain
  split_ifs with h <;> omega

lemma winnerGain_le_32 (w l : ℕ) : winnerGain w l ≤ 32 := by
  have h := rawWinnerGain_eq w l
  have he := expectedWinner_le_scale w l
  unfold winnerGain
  split_ifs with h0 <;> omega

/-- An underdog win always gains at least the equal-ratings gain of 16. -/
lemma sixteen_le_winnerGain_of_underdog {w l : ℕ} (h : w < l) :
    16 ≤ winnerGain w l := by
  have he := expectedWinner_le_half h
  have hg := rawWinnerGain_eq w l
  unfold winnerGain
  split_ifs with h0 <;> omega

/-- A favorite (or equal-ratings) win gains at most 16. -/
lemma winnerGain_le_sixteen_of_favorite {w l : ℕ} (h : l ≤ w) :
    winnerGain w l ≤ 16 := by
  have he := half_le_expectedWinner h
  have he2 := expectedWinner_le_scale w l
  have hg := rawWinnerGain_eq w l
  unfold winnerGain
  split_ifs with h0 <;> omega

/-! ## Claims about the rating update -/

/-- C1 counterexample: update(999, 1000) is an underdog win whose gain is
exactly 16, not strictly more than the equal-ratings gain of 16. -/
theorem C1_counterexample :
    999 < 1000 ∧ (calculate_new_elo 999 1000).1 = 1015 ∧
      ¬ 16 < (calculate_new_elo 999 1000).1 - 999 := by decide

/-- C1 amended: update(1000, 1000) = (1016, 984); the concrete underdog win
update(800, 1200) gains strictly more than 16 and the concrete favorite win
update(1200, 800) gains strictly less than 16; in general an underdog win
gains at least 16 and a favorite win gains at most 16 (strictness fails for
small rating gaps because of floor division). -/
theorem C1_amended :
    calculate_new_elo 1000 1000 = (1016, 984) ∧
    16 < winnerGain 800 1200 ∧
    winnerGain 1200 800 < 16 ∧
    (∀ w l : ℕ, w < l → 16 ≤ winnerGain w l) ∧
    (∀ w l : ℕ, l ≤ w → winnerGain w l ≤ 16) := by
  refine ⟨by decide, by decide, by decide, ?_, ?_⟩
  · exact fun w l h => sixteen_le_winnerGain_of_underdog h
  · exact fun w l h => winnerGain_le_sixteen_of_favorite h

/-- C1 witness: the amended universal parts evaluated at the concrete
underdog win (700, 1300) and favorite win (1300, 700). -/
theorem C1_amended_witness :
    16 ≤ winnerGain 700 1300 ∧ winnerGain 1300 700 ≤ 16 :=
  ⟨C1_amended.2.2.2.1 700 1300 (by decide),
    C1_amended.2.2.2.2 1300 700 (by decide)⟩

/-- C2 amended: as long as the winner rating is at least 32 below the 256-bit
modulus the new winner rating strictly exceeds the old one, for every loser
rating whatsoever. -/
theorem C2_winner_strictly_increases (w l : ℕ) (h : w + 32 < U256MOD) :
    w < (calculate_new_elo w l).1 := by
  unfold calculate_new_elo
  have h1 := winnerGain_pos w l
  have h2 := winnerGain_le_32 w l
  rw [uadd_eq_of_lt (by omega)]
  omega

/-- C2 witness: the extreme-gap win of a 100-rated player over a 2000-rated
player strictly increases the winner's rating. -/
theorem C2_witness : 100 < (calculate_new_elo 100 2000).1 :=
  C2_winner_strictly_increases 100 2000 (by decide)

/-- C2 counterexample: at the top of the 256-bit range the wrapping addition
makes the new winner rating smaller than the old one, so the claim is not
true for every pair of U256 input ratings. -/
theorem C2_counterexample :
    2 ^ 256 - 1 < 2 ^ 256 ∧
      (calculate_new_elo (2 ^ 256 - 1) (2 ^ 256 - 1)).1 = 15 ∧
      ¬ 2 ^ 256 - 1 < (calculate_new_elo (2 ^ 256 - 1) (2 ^ 256 - 1)).1 := by decide

/-- C3: for every pair of U256 input ratings the new loser rating is
loser - loser_loss when loser > loser_loss + 100 and exactly 100 when
loser <= loser_loss + 100, hence never below 100; and update(1200, 100)
returns a loser rating of exactly 100. -/
theorem C3_loser_floor :
    (∀ w l : ℕ, w < U256MOD → l < U256MOD →
      (loserLoss w l + 100 < l → (calculate_new_elo w l).2 = l - loserLoss w l) ∧
      (l ≤ loserLoss w l + 100 → (calculate_new_elo w l).2 = 100) ∧
      100 ≤ (calculate_new_elo w l).2) ∧
    (calculate_new_elo 1200 100).2 = 100 := by
  refine ⟨fun w l _ _ => ?_, by decide⟩
  unfold calculate_new_elo
  split_ifs with h <;> exact ⟨fun h1 => by omega, fun h2 => by omega, by omega⟩

/-- C3 witness: at ratings (110, 110) the floor branch fires and the loser
rating is exactly 100; at (1200, 110) it stays above the floor. -/
theorem C3_witness :
    (calculate_new_elo 110 110).2 = 100 ∧ 100 ≤ (calculate_new_elo 1200 110).2 :=
  ⟨(C3_loser_floor.1 110 110 (by decide) (by decide)).2.1 (by decide),
    (C3_loser_floor.1 1200 110 (by decide) (by decide)).2.2⟩

/-- C5 counterexample: at ratings (1751, 1000) the step-3 winner gain is zero
while the clamped expected score is 969, not the full scale of 1000, so the
forced-minimum rule also fires below expected = SCALE. -/
theorem C5_counterexample :
    expectedWinner 1751 1000 = 969 ∧ rawWinnerGain 1751 1000 = 0 ∧
      (969 : ℕ) ≠ 1000 := by decide

/-- C5 amended: the step-3 winner gain K * (SCALE - expected) / SCALE is zero
exactly when the clamped expected score is at least 969, i.e. whenever
SCALE - expected is at most 31, not only when it equals SCALE. -/
theorem C5_amended (w l : ℕ) :
    rawWinnerGain w l = 0 ↔ 969 ≤ expectedWinner w l := by
  have hg := rawWinnerGain_eq w l
  have he := expectedWinner_le_scale w l
  omega

/-! ## Facts about the range score -/

/-- The tick bonus in plain integer arithmetic (the product is at most
2e19, far below the 256-bit modulus). -/
lemma tickBonus_eq (d : ℕ) :
    tickBonus d = if d < 100 then 2 * 10 ^ 17 * (100 - d) / 100 else 0 := by
  unfold tickBonus TIGHT_RANGE_THRESHOLD TIGHT_RANGE_BONUS
  split_ifs with h
  · rw [umul_eq_of_lt]
    calc 2 * 10 ^ 17 * (100 - d) ≤ 2 * 10 ^ 17 * 100 := Nat.mul_le_mul le_rfl (by omega)
      _ < U256MOD := by decide
  · rfl

lemma tickBonus_le (d : ℕ) : tickBonus d ≤ 2 * 10 ^ 17 := by
  rw [tickBonus_eq]
  split_ifs with h <;> omega

/-- The tick bonus is non-increasing in the tick distance. -/
lemma tickBonus_anti {d d' : ℕ} (h : d ≤ d') : tickBonus d' ≤ tickBonus d := by
  rw [tickBonus_eq, tickBonus_eq]
  split_ifs with h1 h2 <;> omega

/-- A nonzero tick bonus is at least one hundredth of the maximal bonus. -/
lemma tickBonus_lower {d : ℕ} (h : tickBonus d ≠ 0) : 2 * 10 ^ 15 ≤ tickBonus d := by
  rw [tickBonus_eq] at h ⊢
  split_ifs at h ⊢ with h1 <;> omega

lemma rangeBase_lt (i t : ℕ) : rangeBase i t < U256MOD :=
  lt_of_le_of_lt (Nat.div_le_self _ _) (umul_lt _ _)

lemma rangeBase_eq {i : ℕ} (t : ℕ) (h : i * SCORE_DECIMALS < U256MOD) :
    rangeBase i t = i * SCORE_DECIMALS / t := by
  unfold rangeBase
  rw [umul_eq_of_lt h]

/-- The base score is monotone in the in-range time on the no-overflow domain. -/
lemma rangeBase_mono {i i' t : ℕ} (hii : i ≤ i')
    (h : i' * SCORE_DECIMALS < U256MOD) : rangeBase i t ≤ rangeBase i' t := by
  have hi : i * SCORE_DECIMALS ≤ i' * SCORE_DECIMALS := Nat.mul_le_mul hii le_rfl
  rw [rangeBase_eq t (by omega), rangeBase_eq t h]
  exact Nat.div_le_div_right hi

/-- The final addition of range_score cannot wrap when the bonus
multiplication does not overflow. -/
lemma range_no_wrap {b bo : ℕ} (hb : b < U256MOD) (hbo : bo ≤ 2 * 10 ^ 17)
    (hmul : b * bo < U256MOD) (hlow : bo = 0 ∨ 2 * 10 ^ 15 ≤ bo) :
    b + b * bo / SCORE_DECIMALS < U256MOD := by
  unfold SCORE_DECIMALS
  rcases hlow with h0 | h2
  · subst h0
    simp only [Nat.mul_zero, Nat.zero_div]
    omega
  · have hd : b * bo / 10 ^ 18 ≤ b := by
      have hle : b * bo ≤ b * 10 ^ 18 := Nat.mul_le_mul le_rfl (by omega)
      calc b * bo / 10 ^ 18 ≤ b * 10 ^ 18 / 10 ^ 18 := Nat.div_le_div_right hle
        _ = b := Nat.mul_div_cancel b (by norm_num)
    have hbb : b + b ≤ b * bo := by
      calc b + b = b * 2 := by ring
        _ ≤ b * bo := Nat.mul_le_mul le_rfl (by omega)
    omega

/-- range_score on the no-overflow domain, with the wrapping operators
removed. -/
lemma range_score_eq {i t d : ℕ} (h2 : rangeBase i t * tickBonus d < U256MOD) :
    range_score i t d =
      if t = 0 then 0
      else rangeBase i t + rangeBase i t * tickBonus d / SCORE_DECIMALS := by
  unfold range_score
  split_ifs with h
  · rfl
  · have hlow : tickBonus d = 0 ∨ 2 * 10 ^ 15 ≤ tickBonus d := by
      rcases eq_or_ne (tickBonus d) 0 with h0 | h0
      · exact Or.inl h0
      · exact Or.inr (tickBonus_lower h0)
    rw [umul_eq_of_lt h2,
      uadd_eq_of_lt (range_no_wrap (rangeBase_lt i t) (tickBonus_le d) h2 hlow)]

/-- C7: on the no-overflow domain the range score is non-decreasing in
in_range_time for fixed total_time and tick_distance, and non-increasing in
tick_distance for fixed in_range_time and total_time. -/
theorem C7_range_monotone :
    (∀ i i' t d : ℕ, i ≤ i' → i' * SCORE_DECIMALS < U256MOD →
      rangeBase i' t * tickBonus d < U256MOD →
      range_score i t d ≤ range_score i' t d) ∧
    (∀ i t d d' : ℕ, d ≤ d' → i * SCORE_DECIMALS < U256MOD →
      rangeBase i t * tickBonus d < U256MOD →
      range_score i t d' ≤ range_score i t d) := by
  constructor
  · intro i i' t d hii h1 h2
    have hbase : rangeBase i t ≤ rangeBase i' t := rangeBase_mono hii h1
    have h2s : rangeBase i t * tickBonus d < U256MOD :=
      lt_of_le_of_lt (Nat.mul_le_mul hbase le_rfl) h2
    rw [range_score_eq h2s, range_score_eq h2]
    split_ifs with ht
    · exact le_rfl
    · exact Nat.add_le_add hbase
        (Nat.div_le_div_right (Nat.mul_le_mul hbase le_rfl))
  · intro i t d d' hdd h1 h2
    have hanti : tickBonus d' ≤ tickBonus d := tickBonus_anti hdd
    have h2s : rangeBase i t * tickBonus d' < U256MOD :=
      lt_of_le_of_lt (Nat.mul_le_mul le_rfl hanti) h2
    rw [range_score_eq h2s, range_score_eq h2]
    split_ifs with ht
    · exact le_rfl
    · exact Nat.add_le_add le_rfl
        (Nat.div_le_div_right (Nat.mul_le_mul le_rfl hanti))

/-- C7 witness: half the time in range scores no more than all of the time in
range, and tick distance 99 scores no more than tick distance 50, at concrete
no-overflow inputs. -/
theorem C7_witness :
    range_score 1800 3600 50 ≤ range_score 3600 3600 50 ∧
    range_score 1800 3600 99 ≤ range_score 1800 3600 50 :=
  ⟨C7_range_monotone.1 1800 3600 3600 50 (by decide) (by decide) (by decide),
    C7_range_monotone.2 1800 3600 50 99 (by decide) (by decide) (by decide)⟩

/-! ## Degenerate inputs -/

/-- C8: degenerate inputs yield the sentinel zero: a zero total time makes the
range score zero, and a zero LP value or zero duration makes the fee score
zero, for all other arguments. -/
theorem C8_degenerate_zero :
    (∀ x d : ℕ, range_score x 0 d = 0) ∧
    (∀ x t : ℕ, fee_score x 0 t = 0) ∧
    (∀ x v : ℕ, fee_score x v 0 = 0) := by
  refine ⟨fun x d => rfl, fun x t => ?_, fun x v => ?_⟩
  · unfold fee_score
    rw [if_pos (Or.inl rfl)]
  · unfold fee_score
    rw [if_pos (Or.inr rfl)]

/-! ## The reward split -/

/-- C4 counterexample: at total = 2^255 and resolver_bps = 9999 the product
total * bps wraps modulo 2^256, so the resolver amount is the wrapped
2^255 / 10000, not the claimed total * bps / 10000. -/
theorem C4_counterexample :
    (rewards (2 ^ 255) 9999).2 = 2 ^ 255 / 10000 ∧
      (rewards (2 ^ 255) 9999).2 ≠ 2 ^ 255 * 9999 / 10000 := by decide

/-- C4 amended: the conservation invariant winner + resolver = total holds
for every total and every resolver_bps; resolver_bps >= 10000 saturates to
(0, total); and the exact floor-division formula holds whenever the product
total * resolver_bps does not overflow 2^256. -/
theorem C4_amended :
    (∀ total bps : ℕ, (rewards total bps).1 + (rewards total bps).2 = total) ∧
    (∀ total bps : ℕ, MAX_BPS ≤ bps → rewards total bps = (0, total)) ∧
    (∀ total bps : ℕ, bps < MAX_BPS → total * bps < U256MOD →
      rewards total bps =
        (total - total * bps / MAX_BPS, total * bps / MAX_BPS)) := by
  refine ⟨fun total bps => ?_, fun total bps h => ?_, fun total bps h hov => ?_⟩
  · unfold rewards MAX_BPS
    split_ifs with h
    · simp
    · dsimp only
      have h1 : umul total bps ≤ total * bps := umul_le _ _
      have h2 : total * bps ≤ total * 10000 := Nat.mul_le_mul le_rfl (by omega)
      have h3 : umul total bps / 10000 ≤ total * 10000 / 10000 :=
        Nat.div_le_div_right (by omega)
      have h4 : total * 10000 / 10000 = total := Nat.mul_div_cancel total (by norm_num)
      omega
  · unfold rewards
    rw [if_pos h]
  · unfold rewards
    rw [if_neg (by omega), umul_eq_of_lt hov]

/-- C4 witness: the three amended parts evaluated at total = 123456789 with
resolver_bps = 100 and at the saturating resolver_bps = 10000. -/
theorem C4_witness :
    (rewards 123456789 100).1 + (rewards 123456789 100).2 = 123456789 ∧
    rewards 123456789 10000 = (0, 123456789) ∧
    rewards 123456789 100 =
      (123456789 - 123456789 * 100 / MAX_BPS, 123456789 * 100 / MAX_BPS) :=
  ⟨C4_amended.1 123456789 100,
    C4_amended.2.1 123456789 10000 (by decide),
    C4_amended.2.2 123456789 100 (by decide) (by decide)⟩

/-! ## The fee score -/

/-- C6 counterexample: with nonzero LP value 10^18 and nonzero duration 3,
raising the fees from 1 to 2 leaves the score unchanged at zero, so strict
monotonicity in fees fails. -/
theorem C6_counterexample :
    (10 ^ 18 : ℕ) ≠ 0 ∧ (3 : ℕ) ≠ 0 ∧ (1 : ℕ) < 2 ∧
      fee_score 1 (10 ^ 18) 3 = fee_score 2 (10 ^ 18) 3 := by decide

/-- The fee score on the no-overflow domain, with the wrapping operators
removed. -/
lemma fee_score_eq {f v d : ℕ} (hv : v ≠ 0) (hd : d ≠ 0)
    (hf : f * SCORE_DECIMALS < U256MOD) (hvd : v * d < U256MOD) :
    fee_score f v d = f * SCORE_DECIMALS / (v * d) := by
  unfold fee_score
  rw [if_neg (by simp [hv, hd]), umul_eq_of_lt hf, umul_eq_of_lt hvd]

/-- C6 amended: on the no-overflow domain with nonzero LP value and duration,
the fee score is non-decreasing in fees_usd and non-increasing in
lp_value_usd and in duration (strictness fails because of floor division). -/
theorem C6_amended :
    (∀ f f' v d : ℕ, v ≠ 0 → d ≠ 0 → f ≤ f' → f' * SCORE_DECIMALS < U256MOD →
      v * d < U256MOD → fee_score f v d ≤ fee_score f' v d) ∧
    (∀ f v v' d : ℕ, v ≠ 0 → d ≠ 0 → v ≤ v' → f * SCORE_DECIMALS < U256MOD →
      v' * d < U256MOD → fee_score f v' d ≤ fee_score f v d) ∧
    (∀ f v d d' : ℕ, v ≠ 0 → d ≠ 0 → d ≤ d' → f * SCORE_DECIMALS < U256MOD →
      v * d' < U256MOD → fee_score f v d' ≤ fee_score f v d) := by
  refine ⟨fun f f' v d hv hd hff hov1 hov2 => ?_,
    fun f v v' d hv hd hvv hov1 hov2 => ?_,
    fun f v d d' hv hd hdd hov1 hov2 => ?_⟩
  · have hf : f * SCORE_DECIMALS ≤ f' * SCORE_DECIMALS := Nat.mul_le_mul hff le_rfl
    rw [fee_score_eq hv hd (by omega) hov2, fee_score_eq hv hd hov1 hov2]
    exact Nat.div_le_div_right hf
  · have hv' : v' ≠ 0 := by omega
    have hm : v * d ≤ v' * d := Nat.mul_le_mul hvv le_rfl
    rw [fee_score_eq hv' hd hov1 hov2,
      fee_score_eq hv hd hov1 (lt_of_le_of_lt hm hov2)]
    exact Nat.div_le_div_left hm (Nat.mul_pos (Nat.pos_of_ne_zero hv) (Nat.pos_of_ne_zero hd))
  · have hd' : d' ≠ 0 := by omega
    have hm : v * d ≤ v * d' := Nat.mul_le_mul le_rfl hdd
    rw [fee_score_eq hv hd' hov1 hov2,
      fee_score_eq hv hd hov1 (lt_of_le_of_lt hm hov2)]
    exact Nat.div_le_div_left hm (Nat.mul_pos (Nat.pos_of_ne_zero hv) (Nat.pos_of_ne_zero hd))

/-- C6 witness: the three amended parts evaluated at concrete no-overflow
inputs. -/
theorem C6_witness :
    fee_score 10 1000 3600 ≤ fee_score 100 1000 3600 ∧
    fee_score 100 2000 3600 ≤ fee_score 100 1000 3600 ∧
    fee_score 100 1000 7200 ≤ fee_score 100 1000 3600 :=
  ⟨C6_amended.1 10 100 1000 3600 (by decide) (by decide) (by decide) (by decide) (by decide),
    C6_amended.2.1 100 1000 2000 3600 (by decide) (by decide) (by decide) (by decide) (by decide),
    C6_amended.2.2 100 1000 3600 7200 (by decide) (by decide) (by decide) (by decide) (by decide)⟩

/-! ## Cross-exchange normalization -/

/-- The weight table yields 10000 basis points for every index, in range or
not. -/
lemma getD_weight (id : ℕ) : DEX_WEIGHT_BPS.getD id MAX_BPS = 10000 := by
  rcases id with _ | _ | n <;> rfl

/-- Normalization is the identity whenever the weight multiplication does not
overflow 2^256. -/
lemma normalize_cross_dex_identity (raw id : ℕ) (h : raw * MAX_BPS < U256MOD) :
    normalize_cross_dex raw id = raw := by
  unfold normalize_cross_dex
  rw [getD_weight]
  unfold MAX_BPS at h ⊢
  rw [umul_eq_of_lt h]
  exact Nat.mul_div_cancel raw (by norm_num)

/-- C9 counterexample: at raw_score = 2^252 (whose product with the weight
10000 wraps modulo 2^256) and unknown exchange id 2 the result is 0, not the
raw score, so the claim is not true for every raw score. -/
theorem C9_counterexample :
    (2 : ℕ) ≠ 0 ∧ (2 : ℕ) ≠ 1 ∧ normalize_cross_dex (2 ^ 252) 2 ≠ 2 ^ 252 := by decide

/-- C9 amended: for every raw score whose product with the 10000 weight stays
below 2^256 and every exchange id not in 0, 1, normalization returns the raw
score exactly. -/
theorem C9_amended (raw id : ℕ) (hid : 2 ≤ id) (h : raw * MAX_BPS < U256MOD) :
    normalize_cross_dex raw id = raw :=
  normalize_cross_dex_identity raw id h

/-- C9 witness: the unknown exchange id 255 leaves the score 5000 unchanged. -/
theorem C9_witness : normalize_cross_dex 5000 255 = 5000 :=
  C9_amended 5000 255 (by decide) (by decide)

/-- C10: the weight table holds 10000 basis points for both known exchange
ids, so on the no-overflow domain normalization is the identity for every
exchange id whatsoever. -/
theorem C10_identity :
    DEX_WEIGHT_BPS = [10000, 10000] ∧
    ∀ raw id : ℕ, raw * MAX_BPS < U256MOD → normalize_cross_dex raw id = raw :=
  ⟨rfl, fun raw id h => normalize_cross_dex_identity raw id h⟩

/-- C10 witness: identity at the known exchange ids 0 and 1. -/
theorem C10_witness :
    normalize_cross_dex 1000000 0 = 1000000 ∧ normalize_cross_dex 1000000 1 = 1000000 :=
  ⟨C10_identity.2 1000000 0 (by decide), C10_identity.2 1000000 1 (by decide)⟩
